import Mathlib

/-!
Shallow embedding of the gindoc repository (a Gin/Tonic OpenAPI wrapper,
single source file gindoc.go) together with theorems settling the claims
about its route-registration, path-resolution, tag-inheritance, option
application, context publication and document-serving logic.

Go strings are modelled by Lean strings (the inputs of interest are ASCII,
where byte-wise and character-wise processing coincide).  External
collaborators (the Gin engine, the Tonic route registry and the fizz
OpenAPI generator) are modelled abstractly, faithful to the interfaces the
source consumes.
-/

namespace Gindoc

/-! ## Go path.Clean and path.Join (the path package used by joinPaths) -/

/-- Splitting a character list at every slash, mirroring how Go
path.Clean scans the path one segment at a time.  Matches
Go strings.Split on the separator: the empty input yields one empty
segment. -/
def splitSlash : List Char → List (List Char)
  | [] => [[]]
  | c :: rest =>
    if c = '/' then [] :: splitSlash rest
    else
      match splitSlash rest with
      | [] => [[c]]
      | s :: ss => (c :: s) :: ss

/-- Effect of one dot-dot segment on the (reversed) accumulator of kept
segments in Go path.Clean: it pops the previous real segment, cannot pop
above the root when the path is rooted, and accumulates when the path is
relative and only dot-dots (or nothing) precede it. -/
def dotdotStep (rooted : Bool) : List (List Char) → List (List Char)
  | [] => if rooted then [] else [['.', '.']]
  | a :: as =>
    if a = ['.', '.'] then
      if rooted then a :: as else ['.', '.'] :: a :: as
    else as

/-- Core segment processing of Go path.Clean: empty segments and dots
are dropped, a dot-dot transforms the accumulator as dotdotStep, and any
other segment is kept.  The accumulator holds the kept segments in
reverse order. -/
def cleanSegs (rooted : Bool) : List (List Char) → List (List Char) → List (List Char)
  | [], acc => acc.reverse
  | s :: rest, acc =>
    if s = [] ∨ s = ['.'] then cleanSegs rooted rest acc
    else if s = ['.', '.'] then cleanSegs rooted rest (dotdotStep rooted acc)
    else cleanSegs rooted rest (s :: acc)

/-- Joining the kept segments back with slashes (Go path.Clean writes
them into its lazy buffer separated by single slashes). -/
def joinSegs : List (List Char) → List Char
  | [] => []
  | [s] => s
  | s :: t :: rest => s ++ '/' :: joinSegs (t :: rest)

/-- Go path.Clean on a character list: the shortest lexically
equivalent path.  An empty path cleans to a dot, a rooted path keeps its
leading slash, and an all-eliminated path becomes a dot or a slash. -/
def cleanList (p : List Char) : List Char :=
  if p = [] then ['.']
  else
    match cleanSegs (p.head? == some '/') (splitSlash p) [] with
    | [] => if p.head? == some '/' then ['/'] else ['.']
    | s :: rest => (if p.head? == some '/' then ['/'] else []) ++ joinSegs (s :: rest)

/-- Go path.Clean on strings. -/
def pathClean (p : String) : String :=
  String.mk (cleanList p.data)

/-- Two-argument specialization of Go path.Join, exactly as the loop in
path.Join behaves on two elements: all-empty yields the empty string,
a leading empty element is skipped, and otherwise the elements are
joined with a slash and the result is cleaned. -/
def goPathJoin (a b : String) : String :=
  if a = "" ∧ b = "" then ""
  else if a = "" then pathClean b
  else if b = "" then pathClean (a ++ "/")
  else pathClean (a ++ "/" ++ b)

/-- The lastChar helper from gindoc.go: the final byte of a string.  The
source panics on the empty string; the panic is modelled as none. -/
def lastChar (s : String) : Option Char :=
  if s = "" then none else s.data.getLast?

/-- The joinPaths helper from gindoc.go: Go path.Join of the absolute
and relative parts, restoring a trailing slash that the join stripped
from the relative part.  (Identical to the joinPaths helper inside Gin
that computes a derived group's base path.) -/
def joinPaths (abs rel : String) : String :=
  if rel = "" then abs
  else if lastChar rel = some '/' ∧ lastChar (goPathJoin abs rel) ≠ some '/' then
    goPathJoin abs rel ++ "/"
  else goPathJoin abs rel

/-- Variant of joinPaths that propagates the empty-string panic of
lastChar instead of totalizing it: none marks a run that would have hit
the panic branch of lastChar. -/
def joinPathsChecked (abs rel : String) : Option String :=
  if rel = "" then some abs
  else
    match lastChar rel, lastChar (goPathJoin abs rel) with
    | some cr, some cf =>
        some (if cr = '/' ∧ cf ≠ '/' then goPathJoin abs rel ++ "/" else goPathJoin abs rel)
    | _, _ => none

/-! ## Data model: groups, operations, handlers, context -/

/-- An openapi3.Tag: only its name and description are touched by the
source. -/
structure Tag where
  TagName : String
  TagDescription : String := ""
deriving DecidableEq

/-- Go reflect.Type values are opaque here: only their identity matters
to the source (they are passed through to the external generator). -/
abbrev TypeRepr := Nat

/-- A fizz openapi.ResponseHeader, as populated by the Header option.
The model value of Go type interface\x7b\x7d is abstracted by its type. -/
structure ResponseHeader where
  HdrName : String
  HdrDescription : String
  HdrModel : Option TypeRepr
deriving DecidableEq

/-- A fizz openapi.OperationResponse, as populated by the Response and
ResponseWithExamples options.  Example payloads are abstracted as
numbered values. -/
structure OperationResponse where
  Code : String
  RespDescription : String
  Model : Option TypeRepr
  Headers : List ResponseHeader
  Example : Option Nat := none
  Examples : List (String × Nat) := []
deriving DecidableEq

/-- A fizz openapi.XCodeSample. -/
structure XCodeSample where
  Lang : String
  Label : String := ""
  Source : String := ""
deriving DecidableEq

/-- The fizz openapi.OperationInfo record mutated by the option
functions and finalized by Handle.  The InputModel field holds a model
value in Go; only its reflect.Type is ever consumed, so the field is
modelled by that type directly. -/
structure OperationInfo where
  ID : String := ""
  StatusCode : Nat := 0
  StatusDescription : String := ""
  Summary : String := ""
  Description : String := ""
  Deprecated : Bool := false
  Responses : List OperationResponse := []
  Headers : List ResponseHeader := []
  InputModel : Option TypeRepr := none
  XCodeSamples : List XCodeSample := []
deriving DecidableEq

/-- An OperationOption, the option-pattern mutator over an
OperationInfo under construction. -/
def OperationOption := OperationInfo → OperationInfo

/-- The tonic.Route introspection surface consumed by Handle: handler
display name, default success status, input and output types. -/
structure Route where
  HandlerName : String
  GetDefaultStatusCode : Nat
  InputType : TypeRepr
  OutputType : TypeRepr
deriving DecidableEq

/-- The operation object produced by the external fizz generator
(openapi.Operation).  The source only stores and compares references to
it, so it is modelled as an opaque identity. -/
structure Operation where
  objId : Nat
deriving DecidableEq

/-- A value stored in the Gin context: either an operation reference or
some other payload (used to model the defensive wrong-type branch of
OperationFromContext). -/
inductive CtxValue where
  | op : Operation → CtxValue
  | other : Nat → CtxValue
deriving DecidableEq

/-- The per-request Gin context key/value store (c.Set / c.Get).  Set
shadows earlier bindings of the same key, as a Go map overwrite does. -/
structure GinContext where
  store : List (String × CtxValue)

/-- Gin Context.Set. -/
def GinContext.set (c : GinContext) (k : String) (v : CtxValue) : GinContext :=
  ⟨(k, v) :: c.store⟩

/-- Gin Context.Get. -/
def GinContext.get (c : GinContext) (k : String) : Option CtxValue :=
  (c.store.find? (fun p => p.1 == k)).map (fun p => p.2)

/-- The fixed context key under which Handle publishes the operation. -/
def ctxOpenAPIOperation : String := "_ctx_openapi_operation"

/-- A gin.HandlerFunc in a route's middleware chain.  Its runtime entry
point (runtime.FuncForPC(...).Entry()) is modelled by a number; whether
tonic.GetRouteByHandler recognizes the handler, and with which route
metadata, is a property of the handler value recorded in tonicRoute; its
behaviour is a state transformer over the request context. -/
structure Handler where
  entry : Nat
  tonicRoute : Option Route
  run : GinContext → GinContext

/-- The funcEqual helper from gindoc.go: two handler values are the same
callable when their underlying entry points coincide.  (The source also
guards that both values are of function kind before calling Pointer;
gin.HandlerFunc values always are.) -/
def funcEqual (f1 f2 : Handler) : Bool :=
  f1.entry == f2.entry

/-- The closure Handle substitutes for the matched handler: it stores
the operation under the fixed context key and then invokes the original
handler on the same request.  The Go closure has a fresh code address,
never consulted again by the source, modelled by entry 0. -/
def wrapHandler (operation : Operation) (orig : Handler) : Handler :=
  { entry := 0, tonicRoute := orig.tonicRoute,
    run := fun c => orig.run (c.set ctxOpenAPIOperation (CtxValue.op operation)) }

/-- A RouterGroup of the source: base path of the underlying Gin group,
inherited tag sequence, and the exported name/description. -/
structure RouterGroup where
  basePath : String
  tags : List Tag
  RGName : String
  RGDescription : String

/-- RouterGroup.Group from the source.  The receiver is a pointer in Go
and its tags field is reassigned when a tag is supplied, so the call is
modelled as returning the (possibly updated) parent together with the
child.  The child shares the parent's updated tag sequence and its base
path is the Gin-computed join of the parent's base path and the path
segment; the child's literal leaves Name and Description zero.  (The
source's re-initialisation of an empty slice before appending does not
change the sequence's contents.) -/
def RouterGroup.Group (g : RouterGroup) (path : String) (tag : Option Tag) :
    RouterGroup × RouterGroup :=
  let gtags := match tag with
    | none => g.tags
    | some t => g.tags ++ [t]
  ({ g with tags := gtags },
   { basePath := joinPaths g.basePath path, tags := gtags, RGName := "", RGDescription := "" })

/-! ## Operation options -/

/-- The option-application loop at the top of Handle: each supplied
option is applied to the operation under construction, in order. -/
def applyOptions (infos : List OperationOption) (oi : OperationInfo) : OperationInfo :=
  infos.foldl (fun o info => info o) oi

/-- StatusDescription option from the source. -/
def StatusDescription (desc : String) : OperationOption :=
  fun o => { o with StatusDescription := desc }

/-- Summaryf option from the source; the fmt.Sprintf formatting happens
before the option closure is built, so the option receives the already
formatted string. -/
def Summaryf (s : String) : OperationOption :=
  fun o => { o with Summary := s }

/-- Descriptionf option from the source, with the formatted string. -/
def Descriptionf (s : String) : OperationOption :=
  fun o => { o with Description := s }

/-- ID option from the source: overrides the operation ID. -/
def ID (id : String) : OperationOption :=
  fun o => { o with ID := id }

/-- Response option from the source: appends an additional response. -/
def Response (statusCode desc : String) (model : Option TypeRepr)
    (headers : List ResponseHeader) (exampleVal : Option Nat) : OperationOption :=
  fun o =>
    { o with Responses := o.Responses ++
        [{ Code := statusCode, RespDescription := desc, Model := model,
           Headers := headers, Example := exampleVal }] }

/-- Header option from the source: appends a response header. -/
def Header (name desc : String) (model : Option TypeRepr) : OperationOption :=
  fun o =>
    { o with Headers := o.Headers ++
        [{ HdrName := name, HdrDescription := desc, HdrModel := model }] }

/-- InputModel option from the source: overrides the binding model. -/
def InputModel (model : TypeRepr) : OperationOption :=
  fun o => { o with InputModel := some model }

/-- XCodeSample option from the source: appends a code sample. -/
def XCodeSampleOpt (cs : XCodeSample) : OperationOption :=
  fun o => { o with XCodeSamples := o.XCodeSamples ++ [cs] }

/-! ## Handle: the operation assembler -/

/-- The arguments of one call to the external generator's AddOperation
(the observable interaction of Handle with the shared document
generator). -/
structure GenCall where
  path : String
  method : String
  groupName : String
  it : TypeRepr
  ot : TypeRepr
  oi : OperationInfo
deriving DecidableEq

/-- The external fizz generator's AddOperation, abstracted: it may fail,
may report that no operation object was produced, or return the
operation it registered. -/
def GenFn := GenCall → Except String (Option Operation)

/-- A document: the (path, method)-keyed operations registered through
the generator. -/
abbrev Doc := List ((String × String) × Operation)

/-- The non-panicking outcome of Handle: the possibly rewritten handler
chain forwarded to Gin, the updated document, and the AddOperation call
made (none when no typed handler was found). -/
structure HandleOk where
  chain : List Handler
  doc : Doc
  call : Option GenCall

/-- The scan over the handler chain collecting tonic-wrapped handlers
together with their introspected routes (the wrapped slice of the
source). -/
def typedHandlers (handlers : List Handler) : List (Handler × Route) :=
  handlers.filterMap (fun h => h.tonicRoute.map (fun r => (h, r)))

/-- The identifier-defaulting and status-code steps of Handle: an empty
ID is replaced by the handler's introspected name, and the status code
is taken from the handler's default. -/
def finalizeInfo (oi : OperationInfo) (r : Route) : OperationInfo :=
  if oi.ID = "" then
    { oi with ID := r.HandlerName, StatusCode := r.GetDefaultStatusCode }
  else { oi with StatusCode := r.GetDefaultStatusCode }

/-- The AddOperation call Handle builds for the matched route: options
applied in order, identifier and status finalized, input type taken from
an explicit InputModel override or else from the handler's introspected
input type, and the operation path resolved by joinPaths. -/
def builtCall (g : RouterGroup) (path method : String) (infos : List OperationOption)
    (r : Route) : GenCall :=
  { path := joinPaths g.basePath path, method := method, groupName := g.RGName,
    it := match (finalizeInfo (applyOptions infos {}) r).InputModel with
      | some m => m
      | none => r.InputType,
    ot := r.OutputType,
    oi := finalizeInfo (applyOptions infos {}) r }

/-- Handle from the source, with Go panics modelled as errors: applies
the options, scans for tonic-wrapped handlers, panics when more than one
is found, registers nothing when none is found, and otherwise finalizes
the operation info, calls the generator (panicking on generator
failure), records the operation in the document and wraps every handler
whose entry point equals the matched handler's with the
context-publishing closure. -/
def Handle (gen : GenFn) (doc : Doc) (g : RouterGroup) (path method : String)
    (infos : List OperationOption) (handlers : List Handler) :
    Except String HandleOk :=
  if (typedHandlers handlers).length > 1 then
    .error ("multiple tonic-wrapped handler used for operation " ++ method ++ " " ++ path)
  else
    match typedHandlers handlers with
    | [] => .ok ⟨handlers, doc, none⟩
    | w :: _ =>
      match gen (builtCall g path method infos w.2) with
      | .error e =>
          .error ("error while generating OpenAPI spec on operation " ++ method ++ " "
            ++ path ++ ": " ++ e)
      | .ok none => .ok ⟨handlers, doc, some (builtCall g path method infos w.2)⟩
      | .ok (some operation) =>
          .ok ⟨handlers.map (fun h => if funcEqual h w.1 then wrapHandler operation h else h),
               doc ++ [(((builtCall g path method infos w.2).path, method), operation)],
               some (builtCall g path method infos w.2)⟩

/-- Projection used to observe which operation identifier Handle sent to
the generator. -/
def sentOpID : Except String HandleOk → Option String
  | .ok hk => hk.call.map (fun c => c.oi.ID)
  | .error _ => none

/-- OperationFromContext from the source: fetches the published
operation from the Gin context, with a wrong-type error when the stored
value is not an operation and a not-found error when the key is
absent. -/
def OperationFromContext (c : GinContext) : Except String Operation :=
  match c.get ctxOpenAPIOperation with
  | some v =>
    match v with
    | CtxValue.op o => .ok o
    | CtxValue.other _ => .error "invalid type: not an operation"
  | none => .error "operation not found"

/-! ## The OpenAPI document-serving handler constructor -/

/-- The two serializations the handler constructor can produce. -/
inductive DocHandler where
  | json
  | yaml
deriving DecidableEq

/-- Go strings.ToLower, on the ASCII arguments of interest (Lean's
Char.toLower agrees with Go's lowering on ASCII). -/
def asciiToLower (s : String) : String :=
  String.mk (s.data.map Char.toLower)

/-- The content-type normalization at the top of the OpenAPI handler
constructor: lowercase, then default an empty argument to json. -/
def lowerOrJson (ct : String) : String :=
  if asciiToLower ct = "" then "json" else asciiToLower ct

/-- The OpenAPI handler constructor from the source: normalizes the
content type, returns a JSON or YAML serializing handler accordingly and
panics (modelled as an error) on anything else, before any request is
served. -/
def OpenAPI (ct : String) : Except String DocHandler :=
  if lowerOrJson ct = "json" then .ok DocHandler.json
  else if lowerOrJson ct = "yaml" then .ok DocHandler.yaml
  else .error "invalid content type, use JSON or YAML"

/-! ## Supporting lemmas about the path functions -/

theorem string_eq_empty_iff (s : String) : s = "" ↔ s.data = [] := by
  constructor
  · intro h
    rw [h]
  · intro h
    cases s with
    | mk d =>
      cases h
      rfl

theorem lastChar_isSome (s : String) (h : s ≠ "") : ∃ c, lastChar s = some c := by
  rw [lastChar, if_neg h]
  have hd : s.data ≠ [] := fun hh => h ((string_eq_empty_iff s).mpr hh)
  exact ⟨s.data.getLast hd, List.getLast?_eq_getLast s.data hd⟩

theorem string_append_data (s t : String) : (s ++ t).data = s.data ++ t.data := rfl

theorem lastChar_append_slash (s : String) : lastChar (s ++ "/") = some '/' := by
  have hne : (s ++ "/") ≠ "" := by
    intro h
    have := (string_eq_empty_iff _).mp h
    rw [string_append_data] at this
    simp at this
  rw [lastChar, if_neg hne, string_append_data]
  exact List.getLast?_concat _

theorem dotdotStep_ne_nil (rooted : Bool) (acc : List (List Char))
    (hacc : ∀ a ∈ acc, a ≠ []) : ∀ x ∈ dotdotStep rooted acc, x ≠ [] := by
  intro x hx
  cases acc with
  | nil =>
    simp only [dotdotStep] at hx
    cases rooted
    · simp at hx
      subst hx
      simp
    · simp at hx
  | cons a as =>
    simp only [dotdotStep] at hx
    by_cases h3 : a = ['.', '.']
    · rw [if_pos h3] at hx
      cases rooted
      · simp only [Bool.false_eq_true, if_false] at hx
        rcases List.mem_cons.mp hx with h | h
        · subst h
          simp
        · exact hacc x h
      · simp only [if_true] at hx
        exact hacc x hx
    · rw [if_neg h3] at hx
      exact hacc x (List.mem_cons_of_mem a hx)

theorem cleanSegs_ne_nil (rooted : Bool) (input : List (List Char)) :
    ∀ (acc : List (List Char)), (∀ a ∈ acc, a ≠ []) →
      ∀ x ∈ cleanSegs rooted input acc, x ≠ [] := by
  induction input with
  | nil =>
    intro acc hacc x hx
    simp only [cleanSegs] at hx
    exact hacc x (List.mem_reverse.mp hx)
  | cons s rest ih =>
    intro acc hacc x hx
    simp only [cleanSegs] at hx
    by_cases h1 : s = [] ∨ s = ['.']
    · rw [if_pos h1] at hx
      exact ih acc hacc x hx
    · rw [if_neg h1] at hx
      by_cases h2 : s = ['.', '.']
      · rw [if_pos h2] at hx
        exact ih (dotdotStep rooted acc) (dotdotStep_ne_nil rooted acc hacc) x hx
      · rw [if_neg h2] at hx
        refine ih (s :: acc) ?_ x hx
        intro a ha
        rcases List.mem_cons.mp ha with h | h
        · subst h
          intro hc
          exact h1 (Or.inl hc)
        · exact hacc a h

theorem joinSegs_ne_nil (s : List Char) (rest : List (List Char)) (hs : s ≠ []) :
    joinSegs (s :: rest) ≠ [] := by
  cases rest with
  | nil => simpa [joinSegs] using hs
  | cons t r => simp [joinSegs]

theorem cleanList_ne_nil (p : List Char) : cleanList p ≠ [] := by
  rw [cleanList]
  by_cases hp : p = []
  · simp [hp]
  · rw [if_neg hp]
    rcases hseg : cleanSegs (p.head? == some '/') (splitSlash p) [] with _ | ⟨s, rest⟩
    · show (if (p.head? == some '/') = true then ['/'] else ['.']) ≠ []
      split <;> simp
    · have hs : s ≠ [] := by
        refine cleanSegs_ne_nil (p.head? == some '/') (splitSlash p) [] (by simp) s ?_
        rw [hseg]
        exact List.mem_cons_self s rest
      have hj := joinSegs_ne_nil s rest hs
      show ((if (p.head? == some '/') = true then ['/'] else []) ++ joinSegs (s :: rest)) ≠ []
      split
      · simp
      · simpa using hj

theorem pathClean_ne_empty (p : String) : pathClean p ≠ "" := by
  rw [pathClean]
  intro h
  have hl : cleanList p.data = [] := by
    have := congrArg String.data h
    simpa using this
  exact cleanList_ne_nil p.data hl

theorem goPathJoin_ne_empty (a b : String) (hb : b ≠ "") : goPathJoin a b ≠ "" := by
  rw [goPathJoin]
  rw [if_neg (fun h => hb h.2)]
  by_cases ha : a = ""
  · rw [if_pos ha]
    exact pathClean_ne_empty b
  · rw [if_neg ha, if_neg hb]
    exact pathClean_ne_empty _

/-! ## Concrete fixtures used by the counterexamples and witnesses -/

/-- A root router group as produced by NewFromEngine: the underlying Gin
engine group has base path slash, no tags. -/
def grp0 : RouterGroup := { basePath := "/", tags := [], RGName := "", RGDescription := "" }

/-- A sample tag. -/
def tagA : Tag := { TagName := "items", TagDescription := "" }

/-- Another sample tag. -/
def tagB : Tag := { TagName := "users", TagDescription := "" }

/-- A sample tonic route: the introspection result for a typed handler
with display name getItem, default status 200 and distinct input and
output types. -/
def rteA : Route := { HandlerName := "getItem", GetDefaultStatusCode := 200,
                      InputType := 5, OutputType := 6 }

/-- A sample operation object returned by the generator. -/
def opA : Operation := { objId := 1 }

/-- A tonic-wrapped (typed) handler recognized with route rteA. -/
def hTy : Handler := { entry := 10, tonicRoute := some rteA, run := fun c => c }

/-- A plain middleware handler that tonic does not recognize. -/
def hPl : Handler := { entry := 11, tonicRoute := none, run := fun c => c }

/-- A generator that always succeeds and produces opA. -/
def genOkA : GenFn := fun _ => .ok (some opA)

/-- A generator that always fails, as AddOperation may when schema
generation is irreconcilable. -/
def genErrA : GenFn := fun _ => .error "schema error"

/-! ## Reduction lemmas for Handle -/

theorem Handle_zero (gen : GenFn) (doc : Doc) (g : RouterGroup) (path method : String)
    (infos : List OperationOption) (handlers : List Handler)
    (hz : typedHandlers handlers = []) :
    Handle gen doc g path method infos handlers = .ok ⟨handlers, doc, none⟩ := by
  rw [Handle, hz]
  simp

theorem Handle_single_err (gen : GenFn) (doc : Doc) (g : RouterGroup) (path method : String)
    (infos : List OperationOption) (handlers : List Handler) (h0 : Handler) (r0 : Route)
    (e : String)
    (hw : typedHandlers handlers = [(h0, r0)])
    (hgen : gen (builtCall g path method infos r0) = .error e) :
    Handle gen doc g path method infos handlers =
      .error ("error while generating OpenAPI spec on operation " ++ method ++ " "
        ++ path ++ ": " ++ e) := by
  rw [Handle, hw]
  simp [hgen]

theorem Handle_single_none (gen : GenFn) (doc : Doc) (g : RouterGroup) (path method : String)
    (infos : List OperationOption) (handlers : List Handler) (h0 : Handler) (r0 : Route)
    (hw : typedHandlers handlers = [(h0, r0)])
    (hgen : gen (builtCall g path method infos r0) = .ok none) :
    Handle gen doc g path method infos handlers =
      .ok ⟨handlers, doc, some (builtCall g path method infos r0)⟩ := by
  rw [Handle, hw]
  simp [hgen]

theorem Handle_single_some (gen : GenFn) (doc : Doc) (g : RouterGroup) (path method : String)
    (infos : List OperationOption) (handlers : List Handler) (h0 : Handler) (r0 : Route)
    (op : Operation)
    (hw : typedHandlers handlers = [(h0, r0)])
    (hgen : gen (builtCall g path method infos r0) = .ok (some op)) :
    Handle gen doc g path method infos handlers =
      .ok ⟨handlers.map (fun h => if funcEqual h h0 then wrapHandler op h else h),
           doc ++ [(((builtCall g path method infos r0).path, method), op)],
           some (builtCall g path method infos r0)⟩ := by
  rw [Handle, hw]
  simp [hgen]

theorem Handle_multi (gen : GenFn) (doc : Doc) (g : RouterGroup) (path method : String)
    (infos : List OperationOption) (handlers : List Handler)
    (hm : (typedHandlers handlers).length > 1) :
    Handle gen doc g path method infos handlers =
      .error ("multiple tonic-wrapped handler used for operation " ++ method ++ " " ++ path) := by
  rw [Handle, if_pos hm]

/-! ## Claims -/

/-- C10: joinPaths returns the absolute part unchanged on an empty
relative part without inspecting any character, and for every input the
lastChar calls inside joinPaths stay away from the empty-string panic
branch, so joinPaths is total: the panic-propagating variant never
returns none and agrees with joinPaths everywhere. -/
theorem C10_joinPaths_total :
    (∀ abs : String, joinPaths abs "" = abs) ∧
    (∀ abs rel : String, joinPathsChecked abs rel = some (joinPaths abs rel)) := by
  constructor
  · intro abs
    rw [joinPaths, if_pos rfl]
  · intro abs rel
    by_cases hrel : rel = ""
    · rw [joinPathsChecked, joinPaths, if_pos hrel, if_pos hrel]
    · rw [joinPathsChecked, joinPaths, if_neg hrel, if_neg hrel]
      obtain ⟨cr, hcr⟩ := lastChar_isSome rel hrel
      obtain ⟨cf, hcf⟩ := lastChar_isSome (goPathJoin abs rel) (goPathJoin_ne_empty abs rel hrel)
      rw [hcr, hcf]
      by_cases h1 : cr = '/'
      · by_cases h2 : cf = '/'
        · simp [h1, h2]
        · simp [h1, h2]
      · simp [h1]

/-- C3: the resolved operation path is the Go path.Join of the group's
base path and the route's path segment, except that a trailing slash of
the relative segment stripped by the join is restored; concretely,
joining base /a/b with segment /c gives /a/b/c and with segment /c/
gives a path ending in a slash; a derivation chain from the root group
through /a and /b produces base path /a/b; and Handle resolves the
registered operation path with joinPaths on the group's base path. -/
theorem C3_path_resolution :
    joinPaths "/a/b" "/c" = "/a/b/c" ∧
    joinPaths "/a/b" "/c/" = "/a/b/c/" ∧
    lastChar (joinPaths "/a/b" "/c/") = some '/' ∧
    ((grp0.Group "/a" none).2.Group "/b" none).2.basePath = "/a/b" ∧
    (∀ abs rel : String, rel ≠ "" →
      joinPaths abs rel =
        if lastChar rel = some '/' ∧ lastChar (goPathJoin abs rel) ≠ some '/'
        then goPathJoin abs rel ++ "/" else goPathJoin abs rel) ∧
    (∀ abs rel : String, lastChar rel = some '/' → lastChar (joinPaths abs rel) = some '/') ∧
    (∀ (g : RouterGroup) (path method : String) (infos : List OperationOption) (r : Route),
      (builtCall g path method infos r).path = joinPaths g.basePath path) := by
  refine ⟨by decide, by decide, by decide, by decide, ?_, ?_, ?_⟩
  · intro abs rel hrel
    rw [joinPaths, if_neg hrel]
  · intro abs rel hrel
    have hne : rel ≠ "" := by
      intro h
      rw [h] at hrel
      simp [lastChar] at hrel
    rw [joinPaths, if_neg hne]
    by_cases hc : lastChar (goPathJoin abs rel) = some '/'
    · rw [if_neg (fun h => h.2 hc)]
      exact hc
    · rw [if_pos ⟨hrel, hc⟩]
      exact lastChar_append_slash _
  · intro g path method infos r
    rfl

/-- Witness for C3: the general trailing-slash clauses applied at a
concrete base and segment. -/
theorem C3_path_resolution_witness :
    (joinPaths "/x" "/y/" =
      if lastChar "/y/" = some '/' ∧ lastChar (goPathJoin "/x" "/y/") ≠ some '/'
      then goPathJoin "/x" "/y/" ++ "/" else goPathJoin "/x" "/y/") ∧
    lastChar (joinPaths "/x" "/y/") = some '/' :=
  ⟨C3_path_resolution.2.2.2.2.1 "/x" "/y/" (by decide),
   C3_path_resolution.2.2.2.2.2.1 "/x" "/y/" (by decide)⟩

/-- C7: operation options are applied to the operation under
construction in the order given (application distributes over
concatenation of option lists), an option only rewrites its own field of
its target, and when two options set the same field the later one in the
sequence determines the final value: any option list ending in a summary
option yields precisely that summary. -/
theorem C7_options_in_order (l1 l2 : List OperationOption) (o : OperationInfo)
    (s s1 s2 : String) :
    applyOptions (l1 ++ l2) o = applyOptions l2 (applyOptions l1 o) ∧
    (applyOptions (l1 ++ [Summaryf s]) o).Summary = s ∧
    (applyOptions [Summaryf s1, Summaryf s2] o).Summary = s2 ∧
    Summaryf s o = { o with Summary := s } := by
  refine ⟨?_, ?_, rfl, rfl⟩
  · rw [applyOptions, applyOptions, applyOptions, List.foldl_append]
  · rw [applyOptions, List.foldl_append]
    rfl

/-- C5 counterexample: deriving a tagged child rewrites the parent
group's own tag sequence (the source reassigns the receiver's tags
field), so the parent's sequence changes and a sibling derived from the
same parent afterwards observes the earlier sibling's tag. -/
theorem C5_cex_parent_mutated :
    grp0.tags = [] ∧
    (grp0.Group "/items" (some tagA)).1.tags = [tagA] ∧
    (grp0.Group "/items" (some tagA)).1.tags ≠ grp0.tags ∧
    ((grp0.Group "/items" (some tagA)).1.Group "/users" (some tagB)).2.tags = [tagA, tagB] := by
  refine ⟨rfl, rfl, by decide, rfl⟩

/-- C5 amended: Group appends a non-nil tag to the parent group's own
tag sequence (the parent is mutated) and the child shares that updated
sequence; with a nil tag both keep the parent's sequence; along a single
derivation chain a grandchild's tags are the ancestor's tags followed by
the tags added at each derivation step, in derivation order. -/
theorem C5_tag_inheritance (g : RouterGroup) (path p2 : String) (t t2 : Tag) :
    (g.Group path (some t)).1.tags = g.tags ++ [t] ∧
    (g.Group path (some t)).2.tags = g.tags ++ [t] ∧
    (g.Group path none).1.tags = g.tags ∧
    (g.Group path none).2.tags = g.tags ∧
    ((g.Group path (some t)).2.Group p2 (some t2)).2.tags = g.tags ++ [t, t2] := by
  refine ⟨rfl, rfl, rfl, rfl, ?_⟩
  show (g.tags ++ [t]) ++ [t2] = g.tags ++ [t, t2]
  simp

/-- C9 counterexample: the empty string is not the word json or yaml in
any letter case, yet the handler constructor serves JSON for it instead
of raising a fatal error: the source defaults an empty content type to
json before dispatching. -/
theorem C9_cex_empty_content_type :
    asciiToLower "" ≠ "json" ∧ asciiToLower "" ≠ "yaml" ∧
    OpenAPI "" = .ok DocHandler.json :=
  ⟨by decide, by decide, rfl⟩

theorem asciiToLower_eq_empty (ct : String) : asciiToLower ct = "" ↔ ct = "" := by
  rw [string_eq_empty_iff, string_eq_empty_iff]
  simp [asciiToLower]

/-- C9 amended: the handler constructor lowercases its argument and then
serves JSON for json in any letter case, YAML for yaml in any letter
case, JSON for the empty string (the constructor's default), and raises
the fatal configuration error at construction time for every other
value. -/
theorem C9_content_type_dispatch (ct : String) :
    (asciiToLower ct = "json" → OpenAPI ct = .ok DocHandler.json) ∧
    (ct = "" → OpenAPI ct = .ok DocHandler.json) ∧
    (asciiToLower ct = "yaml" → OpenAPI ct = .ok DocHandler.yaml) ∧
    (ct ≠ "" → asciiToLower ct ≠ "json" → asciiToLower ct ≠ "yaml" →
      OpenAPI ct = .error "invalid content type, use JSON or YAML") := by
  refine ⟨?_, ?_, ?_, ?_⟩
  · intro h
    have hl : lowerOrJson ct = "json" := by
      rw [lowerOrJson, h]
      simp
    rw [OpenAPI, if_pos hl]
  · intro h
    subst h
    rfl
  · intro h
    have hl : lowerOrJson ct = "yaml" := by
      rw [lowerOrJson, h]
      simp
    rw [OpenAPI, if_neg (by rw [hl]; decide), if_pos hl]
  · intro hne h1 h2
    have hl : lowerOrJson ct = asciiToLower ct := by
      rw [lowerOrJson, if_neg (fun h => hne ((asciiToLower_eq_empty ct).mp h))]
    rw [OpenAPI, hl, if_neg h1, if_neg h2]

/-- Witness for C9: the dispatch clauses applied at concrete content
types of each kind. -/
theorem C9_content_type_dispatch_witness :
    OpenAPI "JSON" = .ok DocHandler.json ∧
    OpenAPI "YamL" = .ok DocHandler.yaml ∧
    OpenAPI "xml" = .error "invalid content type, use JSON or YAML" :=
  ⟨(C9_content_type_dispatch "JSON").1 (by decide),
   (C9_content_type_dispatch "YamL").2.2.1 (by decide),
   (C9_content_type_dispatch "xml").2.2.2 (by decide) (by decide) (by decide)⟩

/-- C1 counterexample: a chain with exactly one typed handler whose
registration nevertheless aborts, because the external generator reports
an error and the source panics on an AddOperation error; so at most one
typed handler does not by itself guarantee a non-aborting
registration. -/
theorem C1_cex_generator_failure :
    (typedHandlers [hTy]).length = 1 ∧
    Handle genErrA [] grp0 "/x" "GET" [] [hTy] =
      .error "error while generating OpenAPI spec on operation GET /x: schema error" :=
  ⟨rfl, Handle_single_err genErrA [] grp0 "/x" "GET" [] [hTy] hTy rteA "schema error" rfl rfl⟩

/-- C1 amended: registration with at most one typed handler does not
abort provided the generator's operation registration succeeds, and
registration with two or more typed handlers always aborts fatally with
a message containing the offending method and path. -/
theorem C1_registration_abort (gen : GenFn) (doc : Doc) (g : RouterGroup)
    (path method : String) (infos : List OperationOption) (handlers : List Handler) :
    ((typedHandlers handlers).length ≤ 1 → (∀ c, ∃ r, gen c = .ok r) →
      ∃ hk, Handle gen doc g path method infos handlers = .ok hk) ∧
    (2 ≤ (typedHandlers handlers).length →
      ∃ msg, Handle gen doc g path method infos handlers = .error msg ∧
        method.data <:+: msg.data ∧ path.data <:+: msg.data) := by
  constructor
  · intro hle hgen
    rcases hw : typedHandlers handlers with _ | ⟨w, ws⟩
    · exact ⟨⟨handlers, doc, none⟩, Handle_zero gen doc g path method infos handlers hw⟩
    · rw [hw, List.length_cons] at hle
      have hws : ws = [] := List.length_eq_zero.mp (Nat.le_zero.mp (Nat.succ_le_succ_iff.mp hle))
      subst hws
      obtain ⟨h0, r0⟩ := w
      obtain ⟨r, hr⟩ := hgen (builtCall g path method infos r0)
      rcases r with _ | op
      · exact ⟨_, Handle_single_none gen doc g path method infos handlers h0 r0 hw hr⟩
      · exact ⟨_, Handle_single_some gen doc g path method infos handlers h0 r0 op hw hr⟩
  · intro h2
    refine ⟨"multiple tonic-wrapped handler used for operation " ++ method ++ " " ++ path,
      Handle_multi gen doc g path method infos handlers h2, ?_, ?_⟩
    · exact ⟨("multiple tonic-wrapped handler used for operation ").data, (" " ++ path).data,
        by simp [string_append_data, List.append_assoc]⟩
    · exact ⟨("multiple tonic-wrapped handler used for operation " ++ method ++ " ").data,
        [], by simp [string_append_data, List.append_assoc]⟩

/-- Witness for C1 amended: one typed handler with a succeeding
generator registers without aborting; the same typed handler listed
twice aborts with a message containing the method and path. -/
theorem C1_registration_abort_witness :
    (∃ hk, Handle genOkA [] grp0 "/w1" "GET" [] [hPl, hTy] = .ok hk) ∧
    (∃ msg, Handle genOkA [] grp0 "/w2" "POST" [] [hTy, hTy] = .error msg ∧
      ("POST" : String).data <:+: msg.data ∧ ("/w2" : String).data <:+: msg.data) :=
  ⟨(C1_registration_abort genOkA [] grp0 "/w1" "GET" [] [hPl, hTy]).1 (by decide)
      (fun _ => ⟨some opA, rfl⟩),
   (C1_registration_abort genOkA [] grp0 "/w2" "POST" [] [hTy, hTy]).2 (by decide)⟩

/-- C2 counterexample: a registration whose chain has zero typed
handlers registers nothing into the shared document: the source only
calls the generator when exactly one tonic-wrapped handler is found, so
no Operation built from the explicit options is registered (the document
stays empty and no generator call is recorded). -/
theorem C2_cex_zero_typed :
    typedHandlers [hPl] = [] ∧
    Handle genOkA [] grp0 "/x" "GET" [Summaryf "s"] [hPl] = .ok ⟨[hPl], [], none⟩ :=
  ⟨rfl, Handle_zero genOkA [] grp0 "/x" "GET" [Summaryf "s"] [hPl] rfl⟩

/-- C2 amended: for a registration with zero typed handlers the shared
document is unchanged (no operation is registered and the generator is
never called) and the handler chain is forwarded to the router
unchanged; the identifier-defaulting, status-code and handler-wrapping
steps are skipped. -/
theorem C2_zero_typed_skips (gen : GenFn) (doc : Doc) (g : RouterGroup)
    (path method : String) (infos : List OperationOption) (handlers : List Handler)
    (hz : typedHandlers handlers = []) :
    Handle gen doc g path method infos handlers = .ok ⟨handlers, doc, none⟩ :=
  Handle_zero gen doc g path method infos handlers hz

/-- Witness for C2 amended: a concrete zero-typed-handler registration
leaves the chain and document untouched. -/
theorem C2_zero_typed_skips_witness :
    Handle genOkA [] grp0 "/docs" "GET" [Descriptionf "d"] [hPl] = .ok ⟨[hPl], [], none⟩ :=
  C2_zero_typed_skips genOkA [] grp0 "/docs" "GET" [Descriptionf "d"] [hPl] rfl

/-- C6 counterexample: supplying the ID option with the empty string is
supplying an identifier, yet the identifier registered for the operation
is the handler's introspected name, because the source cannot
distinguish an explicitly empty identifier from an absent one. -/
theorem C6_cex_empty_id :
    sentOpID (Handle genOkA [] grp0 "/x" "GET" [ID ""] [hTy]) = some "getItem" ∧
    ("getItem" : String) ≠ "" :=
  ⟨rfl, by decide⟩

/-- C6 amended: for a registration with exactly one typed handler, the
identifier of the registered operation is the identifier left by the
options when that is non-empty, and the handler's introspected display
name when the options left it empty (no ID option, or an empty one). -/
theorem C6_identifier_defaulting (gen : GenFn) (doc : Doc) (g : RouterGroup)
    (path method : String) (infos : List OperationOption) (handlers : List Handler)
    (h0 : Handler) (r0 : Route) (res : Option Operation)
    (hw : typedHandlers handlers = [(h0, r0)])
    (hgen : gen (builtCall g path method infos r0) = .ok res) :
    sentOpID (Handle gen doc g path method infos handlers) =
      some (if (applyOptions infos {}).ID = "" then r0.HandlerName
            else (applyOptions infos {}).ID) := by
  have hcall : (builtCall g path method infos r0).oi.ID =
      if (applyOptions infos {}).ID = "" then r0.HandlerName
      else (applyOptions infos {}).ID := by
    by_cases hid : (applyOptions infos {}).ID = ""
    · simp [builtCall, finalizeInfo, hid]
    · simp [builtCall, finalizeInfo, hid]
  rcases res with _ | op
  · rw [Handle_single_none gen doc g path method infos handlers h0 r0 hw hgen]
    simp [sentOpID, hcall]
  · rw [Handle_single_some gen doc g path method infos handlers h0 r0 op hw hgen]
    simp [sentOpID, hcall]

/-- Witness for C6 amended: with a supplied non-empty identifier the
registered identifier is the supplied one. -/
theorem C6_identifier_defaulting_witness :
    sentOpID (Handle genOkA [] grp0 "/b" "GET" [ID "custom"] [hTy]) =
      some (if (applyOptions [ID "custom"] {}).ID = "" then rteA.HandlerName
            else (applyOptions [ID "custom"] {}).ID) :=
  C6_identifier_defaulting genOkA [] grp0 "/b" "GET" [ID "custom"] [hTy] hTy rteA
    (some opA) rfl rfl

/-- C4: for a registration with exactly one typed handler whose
generator call produces an operation, the operation that the wrapping
closure stores into the request context under the fixed key is the very
operation registered in the document for the resolved (path, method),
and OperationFromContext recovers it inside the handler; moreover
OperationFromContext returns the not-found error exactly when nothing is
stored under the fixed key, and the wrong-type error when the stored
value is not an operation. -/
theorem C4_context_round_trip (gen : GenFn) (doc : Doc) (g : RouterGroup)
    (path method : String) (infos : List OperationOption) (handlers : List Handler)
    (h0 : Handler) (r0 : Route) (op : Operation)
    (hw : typedHandlers handlers = [(h0, r0)])
    (hgen : gen (builtCall g path method infos r0) = .ok (some op)) :
    (∃ hk : HandleOk,
      Handle gen doc g path method infos handlers = .ok hk ∧
      hk.chain = handlers.map (fun h => if funcEqual h h0 then wrapHandler op h else h) ∧
      ((joinPaths g.basePath path, method), op) ∈ hk.doc ∧
      (∀ (h : Handler) (c : GinContext),
        (wrapHandler op h).run c = h.run (c.set ctxOpenAPIOperation (CtxValue.op op)) ∧
        OperationFromContext (c.set ctxOpenAPIOperation (CtxValue.op op)) = .ok op)) ∧
    (∀ c : GinContext,
      OperationFromContext c = .error "operation not found" ↔
        c.get ctxOpenAPIOperation = none) ∧
    (∀ (c : GinContext) (n : Nat), c.get ctxOpenAPIOperation = some (CtxValue.other n) →
      OperationFromContext c = .error "invalid type: not an operation") := by
  refine ⟨⟨_, Handle_single_some gen doc g path method infos handlers h0 r0 op hw hgen,
      rfl, ?_, ?_⟩, ?_, ?_⟩
  · simp [builtCall]
  · intro h c
    exact ⟨rfl, by simp [OperationFromContext, GinContext.get, GinContext.set, List.find?]⟩
  · intro c
    rcases hget : c.get ctxOpenAPIOperation with _ | v
    · rw [OperationFromContext, hget]
      simp
    · rw [OperationFromContext, hget]
      rcases v with o | n
      · simp
      · constructor
        · intro hcontra
          injection hcontra with hmsg
          exact absurd hmsg (by decide)
        · intro hcontra
          exact absurd hcontra (by simp)
  · intro c n hget
    rw [OperationFromContext, hget]

/-- Witness for C4: the round trip at a concrete route with one plain
and one typed handler, plus the retrieval contract on concrete
contexts. -/
theorem C4_context_round_trip_witness :
    (∃ hk : HandleOk,
      Handle genOkA [] grp0 "/items/:id" "GET" [] [hPl, hTy] = .ok hk ∧
      ((joinPaths grp0.basePath "/items/:id", "GET"), opA) ∈ hk.doc) ∧
    OperationFromContext (GinContext.set ⟨[]⟩ ctxOpenAPIOperation (CtxValue.op opA)) =
      .ok opA ∧
    (OperationFromContext ⟨[]⟩ = .error "operation not found" ↔
      GinContext.get ⟨[]⟩ ctxOpenAPIOperation = none) ∧
    OperationFromContext (GinContext.set ⟨[]⟩ ctxOpenAPIOperation (CtxValue.other 0)) =
      .error "invalid type: not an operation" := by
  obtain ⟨⟨hk, h1, h2, h3, h4⟩, h5, h6⟩ :=
    C4_context_round_trip genOkA [] grp0 "/items/:id" "GET" [] [hPl, hTy] hTy rteA opA rfl rfl
  exact ⟨⟨hk, h1, h3⟩, (h4 hPl ⟨[]⟩).2, h5 ⟨[]⟩,
    h6 (GinContext.set ⟨[]⟩ ctxOpenAPIOperation (CtxValue.other 0)) 0 rfl⟩

/-- C8: when an operation is produced for a registration with exactly
one typed handler, Handle rewrites the handler chain pointwise: every
position whose handler has the matched handler's entry point is replaced
by the publishing decorator and every other position keeps its original
handler, so chain order and length are unchanged; the decorator first
stores the operation under the fixed context key and then invokes the
original handler on the resulting request context; and handler identity
is decided by comparing entry points, not value equality. -/
theorem C8_wrap_in_place (gen : GenFn) (doc : Doc) (g : RouterGroup)
    (path method : String) (infos : List OperationOption) (handlers : List Handler)
    (h0 : Handler) (r0 : Route) (op : Operation)
    (hw : typedHandlers handlers = [(h0, r0)])
    (hgen : gen (builtCall g path method infos r0) = .ok (some op)) :
    ∃ hk : HandleOk,
      Handle gen doc g path method infos handlers = .ok hk ∧
      hk.chain = handlers.map (fun h => if funcEqual h h0 then wrapHandler op h else h) ∧
      hk.chain.length = handlers.length ∧
      (∀ h : Handler, funcEqual h h0 = false →
        (if funcEqual h h0 then wrapHandler op h else h) = h) ∧
      (∀ (h : Handler) (c : GinContext),
        (wrapHandler op h).run c = h.run (c.set ctxOpenAPIOperation (CtxValue.op op))) ∧
      (∀ f1 f2 : Handler, funcEqual f1 f2 = (f1.entry == f2.entry)) := by
  refine ⟨_, Handle_single_some gen doc g path method infos handlers h0 r0 op hw hgen,
    rfl, ?_, ?_, fun h c => rfl, fun f1 f2 => rfl⟩
  · simp
  · intro h hne
    simp [hne]

/-- Witness for C8: the in-place wrap at a concrete two-handler chain
whose second element is the typed handler. -/
theorem C8_wrap_in_place_witness :
    ∃ hk : HandleOk,
      Handle genOkA [] grp0 "/w8" "GET" [] [hPl, hTy] = .ok hk ∧
      hk.chain = [hPl, hTy].map (fun h => if funcEqual h hTy then wrapHandler opA h else h) ∧
      hk.chain.length = [hPl, hTy].length := by
  obtain ⟨hk, h1, h2, h3, h4, h5, h6⟩ :=
    C8_wrap_in_place genOkA [] grp0 "/w8" "GET" [] [hPl, hTy] hTy rteA opA rfl rfl
  exact ⟨hk, h1, h2, h3⟩

end Gindoc
